import Mathlib

/-!
Verification of the Workspace Sync Coordinator of the notion-data-mirror
repository, as described by its specification.

The repository's sources under scrutiny are the React pages
`Dashboard.jsx`, `ContentViewer.jsx` and `App.jsx`.  Pure expressions of
those components (the search filter, the toggle handler's state update,
the fetch handlers' state updates and the two button guards) are embedded
directly as Lean functions over explicit state records.  The backend
coordinator (`setPreference`, `runSyncPass`, the preference store and the
content cache) is not part of the repository's sources; where a claim is
about it, the definitions below are modelled from the specification's own
description (each such definition says so in its doc comment).
-/

/-! ## Strings: case folding and substring containment

JavaScript's `s.toLowerCase()` is modelled as per-character lowering and
`hay.includes(needle)` as contiguous-substring containment over the
character list. -/

/-- Per-character lower-casing of a string, as a character list:
the model of JavaScript `s.toLowerCase()` applied before comparison. -/
def lowerChars (s : String) : List Char :=
  s.data.map Char.toLower

/-- `startsWith l n = true` iff `n` is an initial segment of `l`:
the helper for substring search. -/
def startsWith : List Char → List Char → Bool
  | _, [] => true
  | [], _ :: _ => false
  | h :: hs, n :: ns => h == n && startsWith hs ns

/-- `containsSub hay needle = true` iff `needle` occurs contiguously in
`hay`: the model of JavaScript `hay.includes(needle)`. -/
def containsSub : List Char → List Char → Bool
  | [], needle => needle.isEmpty
  | h :: t, needle => startsWith (h :: t) needle || containsSub t needle

/-- The specification's reading of "contains": there is an occurrence,
i.e. a decomposition `l ++ needle ++ r`. -/
def OccursIn (needle hay : List Char) : Prop :=
  ∃ l r, l ++ needle ++ r = hay

/-- The specification's "title or content contains the query
case-insensitively", stated independently of the search code: the lowered
query occurs in the lowered string. -/
def CiContains (s q : String) : Prop :=
  OccursIn (lowerChars q) (lowerChars s)

theorem startsWith_iff (n : List Char) : ∀ l : List Char,
    startsWith l n = true ↔ ∃ r, n ++ r = l := by
  induction n with
  | nil =>
      intro l
      simp [startsWith]
  | cons c ns ih =>
      intro l
      cases l with
      | nil =>
          simp [startsWith]
      | cons h hs =>
          simp only [startsWith, Bool.and_eq_true, beq_iff_eq, ih hs]
          constructor
          · rintro ⟨rfl, r, rfl⟩
            exact ⟨r, rfl⟩
          · rintro ⟨r, hr⟩
            injection hr with h1 h2
            exact ⟨h1.symm, r, h2⟩

theorem containsSub_iff (needle : List Char) : ∀ hay : List Char,
    containsSub hay needle = true ↔ OccursIn needle hay := by
  intro hay
  induction hay with
  | nil =>
      simp only [containsSub, List.isEmpty_iff, OccursIn]
      constructor
      · rintro rfl
        exact ⟨[], [], rfl⟩
      · rintro ⟨l, r, h⟩
        have := List.append_eq_nil.mp h
        have := List.append_eq_nil.mp this.1
        exact this.2
  | cons h t ih =>
      simp only [containsSub, Bool.or_eq_true, startsWith_iff, ih, OccursIn]
      constructor
      · rintro (⟨r, hr⟩ | ⟨l, r, hr⟩)
        · exact ⟨[], r, by simpa using hr⟩
        · exact ⟨h :: l, r, by simp [hr]⟩
      · rintro ⟨l, r, hr⟩
        cases l with
        | nil =>
            left
            exact ⟨r, by simpa using hr⟩
        | cons x xs =>
            right
            injection hr with h1 h2
            exact ⟨xs, r, h2⟩

theorem containsSub_nil (hay : List Char) : containsSub hay [] = true := by
  induction hay with
  | nil => rfl
  | cons h t ih => simp [containsSub, startsWith]

/-! ## Data model (§3 of the spec, field names from the JSON the UI reads) -/

/-- One page or database of the remote workspace, as the dashboard holds
it: `id`, `item_type`, `title`, optional `icon`, and the derived `synced`
flag. -/
structure WorkspaceItem where
  id : String
  item_type : String
  title : String
  icon : Option String
  synced : Bool
deriving Repr, DecidableEq

/-- One cached content entry, as the content viewer receives it from
`GET /notion/content`: `item_id`, `item_type`, `title`, optional `url`,
`content` text and the `last_synced` timestamp. -/
structure SyncedContent where
  item_id : String
  item_type : String
  title : String
  url : Option String
  content : String
  last_synced : Nat
deriving Repr, DecidableEq

/-! ## ContentViewer: the search filter (`filteredContent`) -/

/-- The search filter of `ContentViewer.jsx` (lines 35-38): keep the
entries whose lowered title or lowered content includes the lowered
query. -/
def filteredContent (content : List SyncedContent) (searchQuery : String) :
    List SyncedContent :=
  content.filter (fun item =>
    containsSub (lowerChars item.title) (lowerChars searchQuery) ||
    containsSub (lowerChars item.content) (lowerChars searchQuery))

/-- The content viewer's component state: the cached content list and the
current search query. -/
structure ViewerState where
  content : List SyncedContent
  searchQuery : String
deriving Repr, DecidableEq

/-- Evaluating the search on the viewer state: setting the query and
computing `filteredContent` from the held content list, as the component
does on each render.  The content list itself is only read. -/
def runSearch (st : ViewerState) (q : String) : ViewerState × List SyncedContent :=
  ({ st with searchQuery := q }, filteredContent st.content q)

/-- C1: `search(q)` returns exactly the entries whose title or content
contains `q` case-insensitively, and `search("")` is the full list
unfiltered. -/
theorem search_correct (content : List SyncedContent) (q : String) :
    (∀ e, e ∈ filteredContent content q ↔
        e ∈ content ∧ ( CiContains e.title q ∨ CiContains e.content q)) ∧
    filteredContent content "" = content := by
  constructor
  · intro e
    simp only [filteredContent, List.mem_filter, Bool.or_eq_true,
      containsSub_iff, CiContains]
  · apply List.filter_eq_self.mpr
    intro a _
    have h0 : lowerChars "" = [] := rfl
    simp [h0, containsSub_nil]

/-- C8: search is a pure function of the cache snapshot: evaluating it
leaves the held content list unchanged, and re-evaluating it on the
resulting state returns the same result. -/
theorem search_pure (st : ViewerState) (q : String) :
    (runSearch st q).1.content = st.content ∧
    (runSearch (runSearch st q).1 q).2 = (runSearch st q).2 := by
  constructor
  · rfl
  · rfl

/-! ## Dashboard: component state and handlers -/

/-- The status object the dashboard reads (`GET /notion/status`): the
fields it accesses are `has_key`, `last_sync` and `total_synced`.  Each is
optional because the initial state is the empty object `{}`, in which every
field access yields `undefined`. -/
structure StatusView where
  has_key : Option Bool
  last_sync : Option Nat
  total_synced : Option Nat
deriving Repr, DecidableEq

/-- The initial `status` state of `Dashboard.jsx` (line 17): the empty
object, every field `undefined`. -/
def initialStatus : StatusView :=
  { has_key := none, last_sync := none, total_synced := none }

/-- The dashboard's component state: the item list, the loading and
syncing flags and the status object. -/
structure DashboardState where
  items : List WorkspaceItem
  loading : Bool
  syncing : Bool
  status : StatusView
deriving Repr, DecidableEq

/-- The outcome of the pair of requests `fetchData` issues: either both
payloads, or a failure of either request. -/
inductive FetchOutcome where
  | ok (items : List WorkspaceItem) (status : StatusView)
  | failed
deriving Repr, DecidableEq

/-- `fetchData` of `Dashboard.jsx` (lines 25-40) as a state update: on
success it stores the fetched items and status; on failure the catch
branch only reports the error, it calls no state setter besides the
`finally` clearing of `loading`. -/
def fetchData (st : DashboardState) (r : FetchOutcome) : DashboardState :=
  match r with
  | .ok its stat => { st with items := its, status := stat, loading := false }
  | .failed => { st with loading := false }

/-- The network requests the dashboard can issue, tagged by kind. -/
inductive NetRequest where
  | togglePref (itemId itemType : String) (enabled : Bool)
  | syncPass
  | contentFetch (itemId : String)
deriving Repr, DecidableEq

/-- `handleToggleSync` of `Dashboard.jsx` (lines 42-59): it posts one
toggle request and, when the request succeeds, replaces the item list by
the same list with only the matching item's `synced` flag flipped to
`!currentState`; on request failure it changes no state. -/
def handleToggleSync (st : DashboardState) (itemId itemType : String)
    (currentState : Bool) (requestOk : Bool) :
    DashboardState × List NetRequest :=
  let reqs := [NetRequest.togglePref itemId itemType (!currentState)]
  if requestOk then
    ({ st with items := st.items.map (fun item =>
        if item.id == itemId then { item with synced := !currentState }
        else item) }, reqs)
  else (st, reqs)

/-- `syncedItems` of `Dashboard.jsx` (line 75): the items whose `synced`
flag is set. -/
def syncedItems (items : List WorkspaceItem) : List WorkspaceItem :=
  items.filter (fun item => item.synced)

/-- The `disabled` expression of the Sync Now button
(`Dashboard.jsx` line 158): `syncing || syncedItems.length === 0`. -/
def syncNowDisabled (st : DashboardState) : Bool :=
  st.syncing || (syncedItems st.items).length == 0

/-- JavaScript strict equality `x === 0` on a possibly-undefined numeric
field: `undefined === 0` is `false`. -/
def strictEqZero : Option Nat → Bool
  | some n => n == 0
  | none => false

/-- The `disabled` expression of the View Content button
(`Dashboard.jsx` line 169): `status.total_synced === 0`. -/
def viewContentDisabled (status : StatusView) : Bool :=
  strictEqZero status.total_synced

/-- C4: a failing fetch leaves the previously held item list (and the
status object) unchanged; only the loading flag is cleared. -/
theorem fetchData_failure_keeps_items (st : DashboardState) :
    (fetchData st .failed).items = st.items ∧
    (fetchData st .failed).status = st.status := by
  constructor
  · rfl
  · rfl

/-- C6: toggling an item's sync preference changes only the `synced`
flag of the item with that id: the list keeps its length, every item
keeps its `id`, `item_type`, `title` and `icon`, every item with a
different id is wholly unchanged, and the handler issues no sync pass and
no content fetch. -/
theorem toggle_frame (st : DashboardState) (itemId itemType : String)
    (currentState requestOk : Bool) :
    ((handleToggleSync st itemId itemType currentState requestOk).1.items.length
        = st.items.length) ∧
    (∀ i : Nat, ∀ old : WorkspaceItem, st.items[i]? = some old →
      ∃ new : WorkspaceItem,
        (handleToggleSync st itemId itemType currentState requestOk).1.items[i]?
            = some new ∧
        new.id = old.id ∧ new.item_type = old.item_type ∧
        new.title = old.title ∧ new.icon = old.icon ∧
        (old.id ≠ itemId → new = old)) ∧
    ((handleToggleSync st itemId itemType currentState requestOk).1.loading
        = st.loading ∧
     (handleToggleSync st itemId itemType currentState requestOk).1.syncing
        = st.syncing ∧
     (handleToggleSync st itemId itemType currentState requestOk).1.status
        = st.status) ∧
    (∀ r ∈ (handleToggleSync st itemId itemType currentState requestOk).2,
        r = NetRequest.togglePref itemId itemType (!currentState)) := by
  cases requestOk with
  | false =>
      refine ⟨rfl, ?_, ⟨rfl, rfl, rfl⟩, ?_⟩
      · intro i old h
        exact ⟨old, h, rfl, rfl, rfl, rfl, fun _ => rfl⟩
      · intro r hr
        simpa [handleToggleSync] using hr
  | true =>
      have hred : handleToggleSync st itemId itemType currentState true =
          ({ st with items := st.items.map (fun item =>
              if item.id == itemId then { item with synced := !currentState }
              else item) },
            [NetRequest.togglePref itemId itemType (!currentState)]) := rfl
      rw [hred]
      refine ⟨by simp, ?_, ⟨rfl, rfl, rfl⟩, ?_⟩
      · intro i old h
        refine ⟨if old.id == itemId then { old with synced := !currentState }
          else old, ?_, ?_⟩
        · rw [List.getElem?_map, h]
          rfl
        · by_cases hid : old.id = itemId
          · simp [hid]
          · have hbeq : (old.id == itemId) = false := by
              simpa using hid
            simp [hbeq]
      · intro r hr
        simpa using hr

/-- C9: the Sync Now control is disabled (its click branch is
unreachable) whenever a sync is already in flight or no items are
selected for sync. -/
theorem sync_now_guard (st : DashboardState)
    (h : st.syncing = true ∨ (syncedItems st.items).length = 0) :
    syncNowDisabled st = true := by
  rcases h with h | h
  · simp [syncNowDisabled, h]
  · simp [syncNowDisabled, h]

/-- A dashboard state with a sync pass in flight, used as the guard
witness input. -/
def syncingDash : DashboardState :=
  { items := [], loading := false, syncing := true, status := initialStatus }

/-- Witness for C9: with a sync in flight, the guard evaluates true. -/
theorem sync_now_guard_witness : syncNowDisabled syncingDash = true :=
  sync_now_guard syncingDash (Or.inl rfl)

/-- C10: the View Content control is disabled exactly when
`total_synced` is strictly `0`; on the initial empty status object, where
`total_synced` is undefined, the strict comparison is false and the
control is enabled. -/
theorem view_content_guard (s : StatusView) :
    (viewContentDisabled s = true ↔ s.total_synced = some 0) ∧
    viewContentDisabled initialStatus = false := by
  constructor
  · cases h : s.total_synced with
    | none => simp [viewContentDisabled, strictEqZero, h]
    | some n =>
        simp only [viewContentDisabled, strictEqZero, h, beq_iff_eq,
          Option.some.injEq]
  · rfl

/-! ## Sync Coordinator (modelled from the spec)

The coordinator itself — preference store, content cache, `setPreference`
and `runSyncPass` — is served by the backend, whose sources are not part
of this repository; the definitions of this section are modelled from the
specification (§3, §4.1, §4.2, §6, §7). -/

/-- Modelled from the spec: one `SyncPreference` row of the backend
preference store (§3) — `itemId`, `itemType`, `enabled`. -/
structure SyncPreference where
  itemId : String
  itemType : String
  enabled : Bool
deriving Repr, DecidableEq

/-- Modelled from the spec: the payload of the gateway's
`fetchItemContent` (§6) — `title`, optional `url`, `content` (which may
legitimately be empty). -/
structure FetchedContent where
  title : String
  url : Option String
  content : String
deriving Repr, DecidableEq

/-- Modelled from the spec: the remote workspace gateway's per-item fetch
(§6), as an oracle; `none` is a per-item fetch failure (transient error or
timeout, §5). -/
def Gateway : Type :=
  String → String → Option FetchedContent

/-- Modelled from the spec: the backend coordinator's state — the
preference store, the content cache and the single in-flight flag of the
mutual-exclusion guard (§5, §9). -/
structure CoordinatorState where
  prefs : List SyncPreference
  cache : List SyncedContent
  inFlight : Bool
deriving Repr, DecidableEq

/-- Modelled from the spec: the result of requesting a sync pass — the
`SyncInProgress` rejection, or completion with
`{syncedCount, failedCount, lastSyncTimestamp}` (§4.1, §7). -/
inductive SyncPassOutcome where
  | inProgress
  | completed (syncedCount failedCount lastSyncTimestamp : Nat)
deriving Repr, DecidableEq

/-- Modelled from the spec: the preference-store upsert keyed by
`itemId` (§4.2): overwrite the row if present, append it otherwise. -/
def upsertPref (prefs : List SyncPreference) (itemId itemType : String)
    (enabled : Bool) : List SyncPreference :=
  if prefs.any (fun p => p.itemId == itemId) then
    prefs.map (fun p =>
      if p.itemId == itemId then
        { p with itemType := itemType, enabled := enabled }
      else p)
  else prefs ++ [{ itemId := itemId, itemType := itemType, enabled := enabled }]

/-- Modelled from the spec: `setPreference(itemId, itemType, enabled)`
(§4.1) — an idempotent upsert of a `SyncPreference` row with no side
effect beyond the store write; in particular it does not touch the
content cache. -/
def setPreference (st : CoordinatorState) (itemId itemType : String)
    (enabled : Bool) : CoordinatorState :=
  { st with prefs := upsertPref st.prefs itemId itemType enabled }

/-- Modelled from the spec: the content-cache upsert keyed by `item_id`
(§4.1 step 4, §4.2). -/
def upsertContent (cache : List SyncedContent) (e : SyncedContent) :
    List SyncedContent :=
  if cache.any (fun c => c.item_id == e.item_id) then
    cache.map (fun c => if c.item_id == e.item_id then e else c)
  else cache ++ [e]

/-- Modelled from the spec: one per-item step of a sync pass (§4.1 steps
2-4): fetch the item's content; on success upsert the cache entry with
`lastSynced = now` and count a success; on failure leave the cache alone
and count a failure. -/
def passStep (g : Gateway) (now : Nat)
    (acc : List SyncedContent × Nat × Nat) (p : SyncPreference) :
    List SyncedContent × Nat × Nat :=
  match g p.itemId p.itemType with
  | some fc =>
      (upsertContent acc.1
        { item_id := p.itemId, item_type := p.itemType, title := fc.title,
          url := fc.url, content := fc.content, last_synced := now },
        acc.2.1 + 1, acc.2.2)
  | none => (acc.1, acc.2.1, acc.2.2 + 1)

/-- Modelled from the spec: `runSyncPass` (§4.1): reject with
`SyncInProgress` while a pass is in flight; otherwise walk the enabled
preference rows, with per-item failures non-fatal to the pass, and report
`{syncedCount, failedCount, lastSyncTimestamp}`. -/
def runSyncPass (st : CoordinatorState) (g : Gateway) (now : Nat) :
    CoordinatorState × SyncPassOutcome :=
  if st.inFlight then (st, SyncPassOutcome.inProgress)
  else
    ({ st with cache :=
        ((st.prefs.filter (fun p => p.enabled)).foldl (passStep g now)
          (st.cache, 0, 0)).1 },
      SyncPassOutcome.completed
        ((st.prefs.filter (fun p => p.enabled)).foldl (passStep g now)
          (st.cache, 0, 0)).2.1
        ((st.prefs.filter (fun p => p.enabled)).foldl (passStep g now)
          (st.cache, 0, 0)).2.2
        now)

/-- The dashboard's item-list update for a preference written as the value
`enabled` (`Dashboard.jsx` lines 50-52, with the written flag abstracted):
flip only the matching item's `synced` flag to the written value. -/
def setItemSynced (items : List WorkspaceItem) (itemId : String)
    (enabled : Bool) : List WorkspaceItem :=
  items.map (fun item =>
    if item.id == itemId then { item with synced := enabled } else item)

theorem passFold_counts (g : Gateway) (now : Nat) :
    ∀ (l : List SyncPreference) (c : List SyncedContent) (s f : Nat),
      ((l.foldl (passStep g now) (c, s, f)).2.1
          = s + l.countP (fun p => (g p.itemId p.itemType).isSome)) ∧
      ((l.foldl (passStep g now) (c, s, f)).2.2
          = f + l.countP (fun p => (g p.itemId p.itemType).isNone)) := by
  intro l
  induction l with
  | nil =>
      intro c s f
      simp
  | cons p t ih =>
      intro c s f
      rw [List.foldl_cons]
      cases hg : g p.itemId p.itemType with
      | some fc =>
          have hstep : passStep g now (c, s, f) p =
              (upsertContent c
                  { item_id := p.itemId, item_type := p.itemType,
                    title := fc.title, url := fc.url, content := fc.content,
                    last_synced := now },
                s + 1, f) := by
            simp [passStep, hg]
          rw [hstep]
          rcases ih _ (s + 1) f with ⟨h1, h2⟩
          rw [h1, h2, List.countP_cons, List.countP_cons]
          constructor
          · simp [hg]
            omega
          · simp [hg]
      | none =>
          have hstep : passStep g now (c, s, f) p = (c, s, f + 1) := by
            simp [passStep, hg]
          rw [hstep]
          rcases ih c s (f + 1) with ⟨h1, h2⟩
          rw [h1, h2, List.countP_cons, List.countP_cons]
          constructor
          · simp [hg]
          · simp [hg]
            omega

theorem countP_isSome_add_isNone (g : Gateway) (l : List SyncPreference) :
    l.countP (fun p => (g p.itemId p.itemType).isSome)
      + l.countP (fun p => (g p.itemId p.itemType).isNone) = l.length := by
  induction l with
  | nil => simp
  | cons p t ih =>
      rw [List.countP_cons, List.countP_cons]
      cases hg : g p.itemId p.itemType <;> simp [hg] <;> omega

/-- C2: a sync pass over the enabled items completes (it is a total
function, never raising) and returns `syncedCount = n - k` and
`failedCount = k`, where `n` is the number of selected items and `k` the
number whose gateway fetch fails; a per-item failure only skips that
item's cache update. -/
theorem runSyncPass_partial_failure (st : CoordinatorState) (g : Gateway)
    (now : Nat) (h : st.inFlight = false) :
    (runSyncPass st g now).2 =
      SyncPassOutcome.completed
        ((st.prefs.filter (fun p => p.enabled)).length
          - (st.prefs.filter (fun p => p.enabled)).countP
              (fun p => (g p.itemId p.itemType).isNone))
        ((st.prefs.filter (fun p => p.enabled)).countP
            (fun p => (g p.itemId p.itemType).isNone))
        now := by
  have hneg : ¬ (st.inFlight = true) := by simp [h]
  rcases passFold_counts g now (st.prefs.filter (fun p => p.enabled))
    st.cache 0 0 with ⟨h1, h2⟩
  have hsum := countP_isSome_add_isNone g (st.prefs.filter (fun p => p.enabled))
  unfold runSyncPass
  rw [if_neg hneg]
  simp only [SyncPassOutcome.completed.injEq]
  refine ⟨?_, ?_, trivial⟩
  · rw [h1]
    omega
  · rw [h2]
    omega

/-- Three preference rows, all enabled, for the partial-failure
witness. -/
def wPrefs : List SyncPreference :=
  [ { itemId := "a", itemType := "page", enabled := true },
    { itemId := "b", itemType := "page", enabled := true },
    { itemId := "c", itemType := "database", enabled := true } ]

/-- An idle coordinator holding the three witness rows. -/
def wCoord : CoordinatorState :=
  { prefs := wPrefs, cache := [], inFlight := false }

/-- A gateway that fails for exactly the item `"b"`. -/
def wGateway : Gateway := fun i _ =>
  if i == "b" then none
  else some { title := "T", url := none, content := "body" }

/-- Witness for C2: three selected items, the gateway failing for exactly
one, yield `syncedCount = 2`, `failedCount = 1`. -/
theorem runSyncPass_partial_failure_witness :
    (runSyncPass wCoord wGateway 7).2 = SyncPassOutcome.completed 2 1 7 := by
  have h := runSyncPass_partial_failure wCoord wGateway 7 rfl
  rw [h]
  rfl

/-- C3: requesting a sync pass while one is in flight is rejected with
`SyncInProgress` and changes nothing: the state (preference store, cache
and flag) is returned untouched, so no second pass starts, no cache write
occurs and the request is not queued. -/
theorem runSyncPass_mutex (st : CoordinatorState) (g : Gateway) (now : Nat)
    (h : st.inFlight = true) :
    runSyncPass st g now = (st, SyncPassOutcome.inProgress) := by
  unfold runSyncPass
  rw [if_pos h]

/-- A coordinator with a pass in flight, for the mutual-exclusion
witness. -/
def wBusy : CoordinatorState :=
  { prefs := wPrefs, cache := [], inFlight := true }

/-- Witness for C3: with the in-flight flag set, the request is rejected
and the state unchanged. -/
theorem runSyncPass_mutex_witness :
    runSyncPass wBusy wGateway 0 = (wBusy, SyncPassOutcome.inProgress) :=
  runSyncPass_mutex wBusy wGateway 0 rfl

/-- C5: the round-trip `setPreference(id, type, true)`, `runSyncPass`,
`setPreference(id, type, false)` leaves the cached content exactly as the
sync pass left it, and in general a preference change alone never deletes
or modifies cached content. -/
theorem roundtrip_preserves_cache (st : CoordinatorState)
    (itemId itemType : String) (g : Gateway) (now : Nat) :
    ((setPreference
        ((runSyncPass (setPreference st itemId itemType true) g now).1)
        itemId itemType false).cache
      = ((runSyncPass (setPreference st itemId itemType true) g now).1).cache)
    ∧ (∀ (st' : CoordinatorState) (i t : String) (e : Bool),
        (setPreference st' i t e).cache = st'.cache) :=
  ⟨rfl, fun _ _ _ _ => rfl⟩

theorem upsertPref_keeps_key (itemId itemType : String) (e : Bool)
    (p : SyncPreference) :
    (if p.itemId == itemId then
        { p with itemType := itemType, enabled := e }
      else p).itemId = p.itemId := by
  by_cases hp : p.itemId == itemId
  · rw [if_pos hp]
  · rw [if_neg hp]

theorem upsertPref_idem (prefs : List SyncPreference)
    (itemId itemType : String) (e : Bool) :
    upsertPref (upsertPref prefs itemId itemType e) itemId itemType e
      = upsertPref prefs itemId itemType e := by
  unfold upsertPref
  by_cases hmem : prefs.any (fun p => p.itemId == itemId) = true
  · rw [if_pos hmem]
    have hany2 : (prefs.map (fun p =>
        if p.itemId == itemId then
          { p with itemType := itemType, enabled := e }
        else p)).any (fun p => p.itemId == itemId) = true := by
      rcases List.any_eq_true.mp hmem with ⟨p, hp, hpid⟩
      refine List.any_eq_true.mpr ?_
      refine ⟨_, List.mem_map_of_mem _ hp, ?_⟩
      rw [upsertPref_keeps_key]
      exact hpid
    rw [if_pos hany2, List.map_map]
    refine List.map_congr_left ?_
    intro p _
    simp only [Function.comp_apply]
    by_cases hp : p.itemId == itemId
    · rw [if_pos hp]
      have hkey : ({ p with itemType := itemType, enabled := e }
          : SyncPreference).itemId == itemId := hp
      rw [if_pos hkey]
    · rw [if_neg hp, if_neg hp]
  · rw [if_neg hmem]
    have hfalse : prefs.any (fun p => p.itemId == itemId) = false :=
      Bool.eq_false_iff.mpr hmem
    have hall : ∀ p ∈ prefs, (p.itemId == itemId) = false := by
      intro p hp
      cases hb : p.itemId == itemId
      · rfl
      · exact absurd (List.any_eq_true.mpr ⟨p, hp, hb⟩) hmem
    have hany2 : (prefs ++
        [({ itemId := itemId, itemType := itemType, enabled := e }
          : SyncPreference)]).any
          (fun p => p.itemId == itemId) = true := by
      refine List.any_eq_true.mpr ?_
      refine ⟨({ itemId := itemId, itemType := itemType, enabled := e }
        : SyncPreference), ?_, ?_⟩
      · simp
      · simp
    rw [if_pos hany2, List.map_append]
    have hleft : prefs.map (fun p =>
        if p.itemId == itemId then
          ({ p with itemType := itemType, enabled := e } : SyncPreference)
        else p) = prefs := by
      conv_rhs => rw [← List.map_id prefs]
      refine List.map_congr_left ?_
      intro p hp
      rw [if_neg (by simp [hall p hp]), id]
    rw [hleft]
    simp

theorem setItemSynced_idem (items : List WorkspaceItem) (itemId : String)
    (e : Bool) :
    setItemSynced (setItemSynced items itemId e) itemId e
      = setItemSynced items itemId e := by
  unfold setItemSynced
  rw [List.map_map]
  refine List.map_congr_left ?_
  intro item _
  simp only [Function.comp_apply]
  by_cases hb : (item.id == itemId) = true
  · rw [if_pos hb]
    have hkey : (({ item with synced := e } : WorkspaceItem).id == itemId)
        = true := hb
    rw [if_pos hkey]
  · rw [if_neg hb, if_neg hb]

/-- C7: `setPreference` is idempotent: applying it twice in a row with
the same item id, item type and flag yields the same preference-store
state, and the same dashboard item-list state, as applying it once. -/
theorem setPreference_idem (st : CoordinatorState) (itemId itemType : String)
    (e : Bool) (items : List WorkspaceItem) :
    (setPreference (setPreference st itemId itemType e) itemId itemType e
      = setPreference st itemId itemType e) ∧
    (setItemSynced (setItemSynced items itemId e) itemId e
      = setItemSynced items itemId e) := by
  constructor
  · simp [setPreference, upsertPref_idem]
  · exact setItemSynced_idem items itemId e
